import Mathlib

/-!
Shallow embedding of `src/abstractions/queues/channel.rs`: a single-slot
asynchronous handshake channel built on a one-cell mailbox (`Slot`), with a
`Sender`/`Receiver` pair, a `FutureSender` handshake object, deferred `Done`
termination on sender drop, and an abandonment flag set on receiver drop.

The `Slot` mailbox and the task-parking collaborator are external to
`channel.rs`; they are modelled here from their interface description:
`try_produce` / `try_consume` are non-blocking and fail returning the message
back (resp. reporting empty); `on_full` / `on_empty` register a one-shot
callback that fires when the cell is (or becomes) full (resp. empty) and
return a cancellation token; `cancel` unregisters a not-yet-fired callback and
is otherwise an idempotent no-op.  `task::park()` captures the polling task;
`unpark` requests a re-poll and is modelled by appending the task id to a
`woken` log.  The closures `channel.rs` registers are defunctionalised: the
receiver-poll unpark closure, the receiver-drop drain-and-discard closure, the
sender-poll unpark closure, and the sender-drop write-`Done` closure.
-/

namespace Channel

/-- Rust `Result<T, E>`: `Ok(t)` or `Err(e)`. -/
inductive Res (T E : Type) : Type
  | ok (t : T)
  | err (e : E)
deriving DecidableEq, Repr

/-- `enum Message<T> { Data(T), Done }` from `channel.rs`, instantiated at
`T = Result<T, E>` by the channel. -/
inductive Message (α : Type) : Type
  | data (a : α)
  | done
deriving DecidableEq, Repr

/-- The two closures `channel.rs` ever registers via `on_full`:
`Receiver::poll`'s `move |_| task.unpark()` and `Receiver::drop`'s
`|slot| drop(slot.try_consume())`. -/
inductive FullCb : Type
  | unparkRecv (tid : Nat)
  | drainDiscard
deriving DecidableEq, Repr

/-- The two closures `channel.rs` ever registers via `on_empty`:
`FutureSender::poll`'s `move |_slot, _item| task.unpark()` and
`Sender::drop`'s `|slot, _none| slot.try_produce(Message::Done).ok().unwrap()`. -/
inductive EmptyCb : Type
  | unparkSend (tid : Nat)
  | writeDone
deriving DecidableEq, Repr

/-- Modelled from the spec: the shared channel state — `channel.rs`'s `Inner`
(the `Slot` cell and the `receiver_gone` flag) with the mailbox collaborator
of the interface section inlined.  `slot` holds at most one pending message;
`onFullCb` / `onEmptyCb` hold at most one registered one-shot callback each,
tagged with the token returned at registration; `nextToken` is the
monotonically increasing token counter giving cancellation identity; `woken`
logs the task handles unparked so far. -/
structure Chan (T E : Type) : Type where
  slot : Option (Message (Res T E))
  onFullCb : Option (Nat × FullCb)
  onEmptyCb : Option (Nat × EmptyCb)
  nextToken : Nat
  receiverGone : Bool
  woken : List Nat
deriving DecidableEq, Repr

/-- The two mailbox operations, used to give produce/consume and the callback
chains they trigger as one fuel-indexed function. -/
inductive SlotAct (T E : Type) : Type
  | produce (m : Message (Res T E))
  | consume
deriving DecidableEq, Repr

/-- Modelled from the spec: one mailbox operation, firing the registered
one-shot callback on a successful transition.  A successful produce fires (and
removes) the `on_full` callback; a successful consume fires (and removes) the
`on_empty` callback.  Fired callbacks may themselves operate on the slot
(`drainDiscard` consumes, `writeDone` produces `Done`), which is why the
function is fuel-indexed; since every callback is removed before it runs and
running callbacks never register new ones, a chain visits each callback kind
at most once, so fuel 4 (used by all wrappers below) is never exhausted and
the fuel-0 arms (which perform the transition without firing) are dead code
there.  On failure (`produce` into an occupied
cell, `consume` from an empty one) the state is untouched and the rejected
message is handed back (`produce` returns the caller's own message, `consume`
returns `none`). -/
def slotOp {T E : Type} : Nat → SlotAct T E → Chan T E → Chan T E × Option (Message (Res T E))
  | fuel + 1, .produce m, s =>
    match s.slot with
    | some _ => (s, some m)
    | none =>
      let s1 : Chan T E := { s with slot := some m }
      match s1.onFullCb with
      | some (_, .unparkRecv tid) =>
          ({ s1 with onFullCb := none, woken := s1.woken ++ [tid] }, none)
      | some (_, .drainDiscard) =>
          ((slotOp fuel .consume { s1 with onFullCb := none }).1, none)
      | none => (s1, none)
  | fuel + 1, .consume, s =>
    match s.slot with
    | none => (s, none)
    | some m =>
      let s1 : Chan T E := { s with slot := none }
      match s1.onEmptyCb with
      | some (_, .unparkSend tid) =>
          ({ s1 with onEmptyCb := none, woken := s1.woken ++ [tid] }, some m)
      | some (_, .writeDone) =>
          ((slotOp fuel (.produce .done) { s1 with onEmptyCb := none }).1, some m)
      | none => (s1, some m)
  | 0, .produce m, s =>
    match s.slot with
    | some _ => (s, some m)
    | none => ({ s with slot := some m }, none)
  | 0, .consume, s =>
    match s.slot with
    | none => (s, none)
    | some m => ({ s with slot := none }, some m)

/-- `Slot::try_produce`: put `m` into the cell if it is empty (firing a
registered `on_full` callback), otherwise reject and return `m` back. -/
def tryProduce {T E : Type} (m : Message (Res T E)) (s : Chan T E) :
    Chan T E × Option (Message (Res T E)) :=
  slotOp 4 (.produce m) s

/-- `Slot::try_consume`: take the pending message if there is one (firing a
registered `on_empty` callback), otherwise fail. -/
def tryConsume {T E : Type} (s : Chan T E) :
    Chan T E × Option (Message (Res T E)) :=
  slotOp 4 .consume s

/-- `Slot::cancel(token)`: unregister the callback carrying this token if it
has not fired yet; idempotent no-op otherwise (tokens are never reused, so at
most one registered callback can match). -/
def cancel {T E : Type} (s : Chan T E) (tok : Nat) : Chan T E :=
  { s with
    onFullCb := (match s.onFullCb with
      | some (t, cb) => if t = tok then none else some (t, cb)
      | none => none),
    onEmptyCb := (match s.onEmptyCb with
      | some (t, cb) => if t = tok then none else some (t, cb)
      | none => none) }

/-- The `if let Some(token) = tok.take() { slot.cancel(token) }` pattern both
handles use at the top of `poll` and in `Receiver::drop`. -/
def cancelOpt {T E : Type} (t : Option Nat) (s : Chan T E) : Chan T E :=
  match t with
  | some tok => cancel s tok
  | none => s

/-- Run an `on_full` callback: unpark just logs the task; the receiver-drop
callback drains and discards one message. -/
def fireFull {T E : Type} (cb : FullCb) (s : Chan T E) : Chan T E :=
  match cb with
  | .unparkRecv tid => { s with woken := s.woken ++ [tid] }
  | .drainDiscard => (slotOp 4 .consume s).1

/-- Run an `on_empty` callback: unpark just logs the task; the sender-drop
callback writes `Done` into the cell. -/
def fireEmpty {T E : Type} (cb : EmptyCb) (s : Chan T E) : Chan T E :=
  match cb with
  | .unparkSend tid => { s with woken := s.woken ++ [tid] }
  | .writeDone => (slotOp 4 (.produce .done) s).1

/-- `Slot::on_full(cb)`: if the cell is currently full the callback fires
immediately (and is never stored); otherwise it is stored until the next
successful produce.  Either way a fresh token is returned. -/
def onFull {T E : Type} (cb : FullCb) (s : Chan T E) : Nat × Chan T E :=
  let tok := s.nextToken
  let s1 : Chan T E := { s with nextToken := tok + 1 }
  match s1.slot with
  | some _ => (tok, fireFull cb s1)
  | none => (tok, { s1 with onFullCb := some (tok, cb) })

/-- `Slot::on_empty(cb)`: if the cell is currently empty the callback fires
immediately; otherwise it is stored until the next successful consume. -/
def onEmpty {T E : Type} (cb : EmptyCb) (s : Chan T E) : Nat × Chan T E :=
  let tok := s.nextToken
  let s1 : Chan T E := { s with nextToken := tok + 1 }
  match s1.slot with
  | none => (tok, fireEmpty cb s1)
  | some _ => (tok, { s1 with onEmptyCb := some (tok, cb) })

/-- `create::<T, E>()`: fresh shared state — empty slot, no callbacks, token
counter at zero, abandonment flag clear. -/
def create (T E : Type) : Chan T E :=
  ⟨none, none, none, 0, false, []⟩

/-- The `Receiver<T, E>` handle's own state: its retained `on_full_token`
(the shared `Inner` is passed separately as the `Chan`). -/
structure Receiver : Type where
  onFullToken : Option Nat
deriving DecidableEq, Repr

/-- The receiver handle `create` returns: `on_full_token: None`. -/
def createReceiver : Receiver := ⟨none⟩

/-- Outcome of one `Receiver::poll` (`Poll<Option<T>, E>`):
`Ok(Ready(Some(t)))`, `Err(e)`, `Ok(Ready(None))`, or `Ok(NotReady)`. -/
inductive RPoll (T E : Type) : Type
  | ready (t : T)
  | error (e : E)
  | exhausted
  | notReady
deriving DecidableEq, Repr

/-- `impl Stream for Receiver — fn poll`: cancel the retained `on_full` token
if any; then try to consume: `Data(Ok(v))` yields the value, `Data(Err(e))`
propagates the error, `Done` reports exhaustion, and an empty mailbox parks
the current task (`tid`), registers an `on_full` unpark callback, retains its
token and reports not-ready. -/
def Receiver.poll {T E : Type} (tid : Nat) (r : Receiver) (s : Chan T E) :
    RPoll T E × Receiver × Chan T E :=
  let s1 := cancelOpt r.onFullToken s
  match tryConsume s1 with
  | (s2, some (.data (.ok v))) => (.ready v, ⟨none⟩, s2)
  | (s2, some (.data (.err e))) => (.error e, ⟨none⟩, s2)
  | (s2, some .done) => (.exhausted, ⟨none⟩, s2)
  | (s2, none) =>
    let ts := onFull (.unparkRecv tid) s2
    (.notReady, ⟨some ts.1⟩, ts.2)

/-- `impl Drop for Receiver`: set `receiver_gone` (SeqCst), cancel the
retained token if any, then register a best-effort `on_full` callback that
drains and discards one message (its token is discarded). -/
def Receiver.drop {T E : Type} (r : Receiver) (s : Chan T E) : Chan T E :=
  let s1 : Chan T E := { s with receiverGone := true }
  (onFull .drainDiscard (cancelOpt r.onFullToken s1)).2

/-- The `FutureSender<T, E>` handshake object: whether it still holds the
`Sender` (`sender: Option<Sender>` in the source — the sender itself carries
only the shared `Inner`), the pending payload, and the retained
`on_empty_token`. -/
structure FutureSender (T E : Type) : Type where
  sender : Bool
  data : Option (Res T E)
  onEmptyToken : Option Nat
deriving DecidableEq, Repr

/-- `Sender::send(t)`: consume the sender into a `FutureSender` holding the
payload, with no registration yet. -/
def Sender.send {T E : Type} (d : Res T E) : FutureSender T E :=
  ⟨true, some d, none⟩

/-- `impl Drop for Sender`: register an unconditional `on_empty` callback
that writes `Done` into the mailbox once it has (or if it already has) room;
the token is discarded. -/
def Sender.drop {T E : Type} (s : Chan T E) : Chan T E :=
  (onEmpty .writeDone s).2

/-- Outcome of one `FutureSender::poll` (`Poll<Sender, SendError>`):
`Ok(Ready(sender))` hands the sender back to the caller, `Ok(NotReady)`
suspends, `Err(SendError(data))` returns the original payload, and `panicked`
stands for the two `panic!` sites (the double-poll `expect`s and the
recovered-`Done` branch). -/
inductive SPoll (T E : Type) : Type
  | ready
  | notReady
  | sendError (d : Res T E)
  | panicked
deriving DecidableEq, Repr

/-- `impl Future for FutureSender — fn poll`: take the payload and the sender
(panicking if either was already consumed by a previous resolving poll);
cancel the retained `on_empty` token if any; if `receiver_gone` is set,
resolve with `SendError(data)` — the taken sender is a local that is dropped
on return, running `Sender::drop`.  Otherwise try to produce `Data(data)`:
on success resolve with the sender; on rejection park the current task
(`tid`), register an `on_empty` unpark callback, retain its token, restore
the payload recovered from the rejected message (panicking if it were `Done`)
and the sender, and report not-ready. -/
def FutureSender.poll {T E : Type} (tid : Nat) (f : FutureSender T E) (s : Chan T E) :
    SPoll T E × FutureSender T E × Chan T E :=
  match f.data, f.sender with
  | some d, true =>
    let s1 := cancelOpt f.onEmptyToken s
    if s1.receiverGone then
      (.sendError d, ⟨false, none, none⟩, Sender.drop s1)
    else
      match tryProduce (.data d) s1 with
      | (s2, none) => (.ready, ⟨false, none, none⟩, s2)
      | (s2, some rejected) =>
        let ts := onEmpty (.unparkSend tid) s2
        match rejected with
        | .data d2 => (.notReady, ⟨true, some d2, some ts.1⟩, ts.2)
        | .done => (.panicked, ⟨true, none, some ts.1⟩, ts.2)
  | _, _ => (.panicked, f, s)

/-- `impl Drop for FutureSender`: if both the token and the sender are still
held, cancel the token; then the still-held sender (if any) is dropped,
running `Sender::drop`. -/
def FutureSender.drop {T E : Type} (f : FutureSender T E) (s : Chan T E) : Chan T E :=
  let s1 := match f.onEmptyToken, f.sender with
    | some tok, true => cancel s tok
    | _, _ => s
  if f.sender then Sender.drop s1 else s1

/-- The consumer-side outcome a payload produces when drained:
`Ok(v)` is reported as a produced value, `Err(e)` is propagated. -/
def outcomeOf {T E : Type} (v : Res T E) : RPoll T E :=
  match v with
  | .ok t => .ready t
  | .err e => .error e

/-- One round of the canonical alternating schedule: the producer sends `v`
and polls the handshake once (task `stid`), then the receiver polls once
(task `rtid`); both outcomes are reported. -/
def sendRecvStep {T E : Type} (stid rtid : Nat) (v : Res T E) (r : Receiver) (s : Chan T E) :
    SPoll T E × RPoll T E × Receiver × Chan T E :=
  let ps := FutureSender.poll stid (Sender.send v) s
  let pr := Receiver.poll rtid r ps.2.2
  (ps.1, pr)

/-- The canonical schedule for a whole list of payloads, collecting the
producer-side and receiver-side outcomes in order. -/
def sendRecvLoop {T E : Type} (stid rtid : Nat) :
    List (Res T E) → Receiver → Chan T E →
      List (SPoll T E) × List (RPoll T E) × Receiver × Chan T E
  | [], r, s => ([], [], r, s)
  | v :: vs, r, s =>
    let p := sendRecvStep stid rtid v r s
    let q := sendRecvLoop stid rtid vs p.2.2.1 p.2.2.2
    (p.1 :: q.1, p.2.1 :: q.2.1, q.2.2)

/-- `n` consecutive receiver polls, collecting the outcomes in order. -/
def pollIter {T E : Type} (tid : Nat) :
    Nat → Receiver → Chan T E → List (RPoll T E) × Receiver × Chan T E
  | 0, r, s => ([], r, s)
  | n + 1, r, s =>
    let p := Receiver.poll tid r s
    let q := pollIter tid n p.2.1 p.2.2
    (p.1 :: q.1, q.2)

/-- A quiescent shared state: empty mailbox, no registered callbacks, receiver
not abandoned.  `create` produces such a state and the canonical schedule
preserves it between rounds. -/
def Clean {T E : Type} (s : Chan T E) : Prop :=
  s.slot = none ∧ s.onFullCb = none ∧ s.onEmptyCb = none ∧ s.receiverGone = false

/-- Who currently owns the producer side: the caller holds the `Sender`, a
`FutureSender` is in flight, or the sender has been dropped. -/
inductive ProducerSide (T E : Type) : Type
  | idle
  | inflight (f : FutureSender T E)
  | dead
deriving DecidableEq, Repr

/-- A whole-system configuration: the shared state, the producer side, the
receiver handle and whether it is still alive. -/
structure Sys (T E : Type) : Type where
  chan : Chan T E
  prod : ProducerSide T E
  recv : Receiver
  recvAlive : Bool
deriving DecidableEq, Repr

/-- The system right after `create`. -/
def initSys (T E : Type) : Sys T E :=
  ⟨create T E, .idle, createReceiver, true⟩

/-- Poll an in-flight `FutureSender`: on `ready` the caller gets the sender
back (idle); on `notReady` the updated handshake object stays in flight; on
`sendError` the sender was dropped inside `poll` (dead). -/
def pollSendSys {T E : Type} (tid : Nat) (f : FutureSender T E) (sys : Sys T E) : Sys T E :=
  let p := FutureSender.poll tid f sys.chan
  { sys with
    chan := p.2.2,
    prod := match p.1 with
      | .ready => .idle
      | .notReady => .inflight p.2.1
      | .sendError _ => .dead
      | .panicked => .inflight p.2.1 }

/-- Drop an in-flight `FutureSender` (runs `FutureSender::drop`, which also
drops the embedded sender). -/
def dropFutureSys {T E : Type} (f : FutureSender T E) (sys : Sys T E) : Sys T E :=
  { sys with chan := FutureSender.drop f sys.chan, prod := .dead }

/-- Drop an idle `Sender` (runs `Sender::drop`). -/
def dropSenderSys {T E : Type} (sys : Sys T E) : Sys T E :=
  { sys with chan := Sender.drop sys.chan, prod := .dead }

/-- Poll the live receiver on task `tid`. -/
def pollRecvSys {T E : Type} (tid : Nat) (sys : Sys T E) : Sys T E :=
  let p := Receiver.poll tid sys.recv sys.chan
  { sys with chan := p.2.2, recv := p.2.1 }

/-- Drop the live receiver (runs `Receiver::drop`). -/
def dropRecvSys {T E : Type} (sys : Sys T E) : Sys T E :=
  { sys with chan := Receiver.drop sys.recv sys.chan, recv := ⟨none⟩, recvAlive := false }

/-- The moves the two endpoints can make: `send` consumes the idle sender into
a handshake object, an in-flight handshake can be polled or dropped, an idle
sender can be dropped, and a live receiver can be polled or dropped. -/
inductive Step {T E : Type} : Sys T E → Sys T E → Prop
  | send (sys : Sys T E) (d : Res T E) (h : sys.prod = .idle) :
      Step sys { sys with prod := .inflight (Sender.send d) }
  | pollSend (sys : Sys T E) (tid : Nat) (f : FutureSender T E)
      (h : sys.prod = .inflight f) : Step sys (pollSendSys tid f sys)
  | dropFuture (sys : Sys T E) (f : FutureSender T E)
      (h : sys.prod = .inflight f) : Step sys (dropFutureSys f sys)
  | dropSender (sys : Sys T E) (h : sys.prod = .idle) : Step sys (dropSenderSys sys)
  | pollRecv (sys : Sys T E) (tid : Nat) (h : sys.recvAlive = true) :
      Step sys (pollRecvSys tid sys)
  | dropRecv (sys : Sys T E) (h : sys.recvAlive = true) : Step sys (dropRecvSys sys)

/-- Configurations reachable from a fresh channel. -/
inductive Reachable {T E : Type} : Sys T E → Prop
  | init : Reachable (initSys T E)
  | step {a b : Sys T E} : Reachable a → Step a b → Reachable b

/-- The inductive invariant behind claim C10: while the producer side still
holds the sender (idle, or in flight with the sender not yet taken), the
mailbox cannot contain `Done` and no `writeDone` callback is registered; and
an in-flight handshake always still holds both its payload and the sender. -/
def Inv {T E : Type} (sys : Sys T E) : Prop :=
  (sys.prod ≠ .dead →
    sys.chan.slot ≠ some .done ∧ ∀ tk, sys.chan.onEmptyCb ≠ some (tk, .writeDone)) ∧
  (∀ f, sys.prod = .inflight f → f.sender = true ∧ f.data.isSome = true)

/-! ### Basic facts about the mailbox model -/

theorem cancel_slot {T E : Type} (s : Chan T E) (tok : Nat) :
    (cancel s tok).slot = s.slot := rfl

theorem cancelOpt_slot {T E : Type} (t : Option Nat) (s : Chan T E) :
    (cancelOpt t s).slot = s.slot := by
  cases t <;> rfl

theorem cancelOpt_nextToken {T E : Type} (t : Option Nat) (s : Chan T E) :
    (cancelOpt t s).nextToken = s.nextToken := by
  cases t <;> rfl

theorem cancelOpt_receiverGone {T E : Type} (t : Option Nat) (s : Chan T E) :
    (cancelOpt t s).receiverGone = s.receiverGone := by
  cases t <;> rfl

theorem cancelOpt_woken {T E : Type} (t : Option Nat) (s : Chan T E) :
    (cancelOpt t s).woken = s.woken := by
  cases t <;> rfl

/-- A drain attempt hands back exactly the current slot content. -/
theorem tryConsume_snd {T E : Type} (s : Chan T E) : (tryConsume s).2 = s.slot := by
  obtain ⟨sl, oF, oE, nt, rg, wk⟩ := s
  cases sl with
  | none => rfl
  | some m =>
    rcases oE with _ | ⟨t, cb⟩
    · rfl
    · cases cb <;> rfl

/-- Draining an empty mailbox fails and leaves the state untouched. -/
theorem tryConsume_empty {T E : Type} (s : Chan T E) (h : s.slot = none) :
    tryConsume s = (s, none) := by
  obtain ⟨sl, oF, oE, nt, rg, wk⟩ := s
  cases sl with
  | none => rfl
  | some m => simp at h

/-- Producing into an occupied mailbox is rejected, returning the caller's
message back with the state untouched. -/
theorem tryProduce_occupied {T E : Type} (m m0 : Message (Res T E)) (s : Chan T E)
    (h : s.slot = some m0) : tryProduce m s = (s, some m) := by
  obtain ⟨sl, oF, oE, nt, rg, wk⟩ := s
  cases sl with
  | none => simp at h
  | some m' => rfl

/-- The outcome component of a receiver poll depends only on the drained
message, i.e. on the current slot content. -/
theorem receiver_poll_fst {T E : Type} (tid : Nat) (r : Receiver) (s : Chan T E) :
    (Receiver.poll tid r s).1 =
      (match s.slot with
        | some (.data (.ok v)) => .ready v
        | some (.data (.err e)) => .error e
        | some .done => .exhausted
        | none => .notReady) := by
  have h2 : (tryConsume (cancelOpt r.onFullToken s)).2 = s.slot := by
    rw [tryConsume_snd, cancelOpt_slot]
  simp only [Receiver.poll]
  rcases hq : tryConsume (cancelOpt r.onFullToken s) with ⟨s2, msg⟩
  rw [hq] at h2
  simp only at h2
  rw [← h2]
  cases msg with
  | none => rfl
  | some m =>
    cases m with
    | done => rfl
    | data a => cases a <;> rfl

/-- A receiver poll on an empty mailbox: not-ready, a fresh `on_full` unpark
registration for the polling task, its token retained by the handle. -/
theorem receiver_poll_empty {T E : Type} (tid : Nat) (r : Receiver) (s : Chan T E)
    (h : s.slot = none) :
    Receiver.poll tid r s =
      (.notReady, ⟨some s.nextToken⟩,
        { cancelOpt r.onFullToken s with
            nextToken := s.nextToken + 1,
            onFullCb := some (s.nextToken, .unparkRecv tid) }) := by
  have h1 : (cancelOpt r.onFullToken s).slot = none := by rw [cancelOpt_slot]; exact h
  simp only [Receiver.poll]
  rw [tryConsume_empty _ h1]
  simp only [onFull, h1, cancelOpt_nextToken]

/-! ### Claim theorems -/

/-- C5: every receiver poll lands in exactly one of the four outcomes, decided
by the drain attempt: `Data(Ok(v))` reports the value, `Data(Err(e))`
propagates the error, `Done` reports exhaustion, and an empty mailbox
registers an `on_full` unpark callback for the polling task, retains its
token, and reports pending. -/
theorem receiver_poll_four_outcomes {T E : Type} (tid : Nat) (r : Receiver) (s : Chan T E) :
    (∀ v, s.slot = some (.data (.ok v)) → (Receiver.poll tid r s).1 = .ready v) ∧
    (∀ e, s.slot = some (.data (.err e)) → (Receiver.poll tid r s).1 = .error e) ∧
    (s.slot = some .done → (Receiver.poll tid r s).1 = .exhausted) ∧
    (s.slot = none →
      (Receiver.poll tid r s).1 = .notReady ∧
      (Receiver.poll tid r s).2.1.onFullToken = some s.nextToken ∧
      (Receiver.poll tid r s).2.2.onFullCb = some (s.nextToken, .unparkRecv tid)) := by
  refine ⟨fun v hv => ?_, fun e he => ?_, fun hD => ?_, fun hN => ?_⟩
  · rw [receiver_poll_fst]; rw [hv]
  · rw [receiver_poll_fst]; rw [he]
  · rw [receiver_poll_fst]; rw [hD]
  · rw [receiver_poll_empty tid r s hN]
    exact ⟨rfl, rfl, rfl⟩

/-- Witness for C5: a slot holding `Data(Ok(5))` yields the value; a fresh
channel's empty slot yields pending. -/
theorem receiver_poll_four_outcomes_witness :
    (Receiver.poll 3 createReceiver
        (⟨some (.data (.ok 5)), none, none, 0, false, []⟩ : Chan Nat Nat)).1 = .ready 5 ∧
    (Receiver.poll 3 createReceiver (create Nat Nat)).1 = .notReady :=
  ⟨(receiver_poll_four_outcomes 3 createReceiver _).1 5 rfl,
   ((receiver_poll_four_outcomes 3 createReceiver (create Nat Nat)).2.2.2 rfl).1⟩

/-- C7: polling a `FutureSender` whose payload or sender was already taken by
a previous resolving poll hits the `expect("cannot poll FutureSender twice")`
panic rather than any recoverable outcome. -/
theorem futureSender_double_poll_panics {T E : Type} (tid : Nat)
    (f : FutureSender T E) (s : Chan T E) (h : f.data = none ∨ f.sender = false) :
    FutureSender.poll tid f s = (.panicked, f, s) := by
  obtain ⟨sd, dt, tk⟩ := f
  rcases h with h | h
  · simp only at h
    subst h
    rfl
  · simp only at h
    subst h
    cases dt <;> rfl

/-- Witness for C7: a `FutureSender` whose payload was consumed panics when
polled again. -/
theorem futureSender_double_poll_panics_witness :
    FutureSender.poll 0 (⟨true, none, none⟩ : FutureSender Nat Nat) (create Nat Nat) =
      (.panicked, ⟨true, none, none⟩, create Nat Nat) :=
  futureSender_double_poll_panics 0 _ _ (Or.inl rfl)

/-- C3: if the receiver has been dropped (abandonment flag set) before the
handshake resolves, polling the `FutureSender` resolves immediately as
send-failed, carrying exactly the original payload. -/
theorem send_fails_with_original_payload {T E : Type} (tid : Nat)
    (f : FutureSender T E) (s : Chan T E) (d : Res T E)
    (hd : f.data = some d) (hs : f.sender = true) (hg : s.receiverGone = true) :
    (FutureSender.poll tid f s).1 = .sendError d := by
  have h1 : (cancelOpt f.onEmptyToken s).receiverGone = true := by
    rw [cancelOpt_receiverGone]; exact hg
  simp only [FutureSender.poll, hd, hs]
  simp [h1]

/-- Witness for C3: after `Receiver::drop`, a send of `Ok(42)` polls to
`SendError(Ok(42))`. -/
theorem send_fails_with_original_payload_witness :
    (FutureSender.poll 0 (Sender.send (T := Nat) (E := Nat) (.ok 42))
        (Receiver.drop createReceiver (create Nat Nat))).1 = .sendError (.ok 42) :=
  send_fails_with_original_payload 0 _ _ _ rfl rfl (by decide)

/-- C2: while the mailbox still holds an undrained message and the receiver is
not abandoned, polling a `FutureSender` reports pending — never ready — keeps
its payload and sender, leaves the message in place, and registers an
`on_empty` unpark callback whose token it retains. -/
theorem backpressure_pending_while_undrained {T E : Type} (tid : Nat)
    (f : FutureSender T E) (s : Chan T E) (d : Res T E) (m : Message (Res T E))
    (hd : f.data = some d) (hs : f.sender = true)
    (hg : s.receiverGone = false) (hm : s.slot = some m) :
    (FutureSender.poll tid f s).1 = .notReady ∧
    (FutureSender.poll tid f s).2.1.sender = true ∧
    (FutureSender.poll tid f s).2.1.data = some d ∧
    (FutureSender.poll tid f s).2.2.slot = some m ∧
    (FutureSender.poll tid f s).2.1.onEmptyToken = some s.nextToken ∧
    (FutureSender.poll tid f s).2.2.onEmptyCb = some (s.nextToken, .unparkSend tid) := by
  have h1 : (cancelOpt f.onEmptyToken s).receiverGone = false := by
    rw [cancelOpt_receiverGone]; exact hg
  have h2 : (cancelOpt f.onEmptyToken s).slot = some m := by
    rw [cancelOpt_slot]; exact hm
  have h3 : tryProduce (.data d) (cancelOpt f.onEmptyToken s) =
      (cancelOpt f.onEmptyToken s, some (.data d)) := tryProduce_occupied _ _ _ h2
  simp only [FutureSender.poll, hd, hs]
  simp only [h1, Bool.false_eq_true, if_false, h3]
  simp [onEmpty, h2, cancelOpt_nextToken]

/-- Witness for C2: with `Data(Ok(5))` undrained, sending `Ok(6)` polls to
pending and keeps its payload. -/
theorem backpressure_pending_while_undrained_witness :
    (FutureSender.poll 8 (Sender.send (.ok 6))
        (⟨some (.data (.ok 5)), none, none, 0, false, []⟩ : Chan Nat Nat)).1 = .notReady ∧
    (FutureSender.poll 8 (Sender.send (.ok 6))
        (⟨some (.data (.ok 5)), none, none, 0, false, []⟩ : Chan Nat Nat)).2.1.data =
      some (.ok 6) :=
  ⟨(backpressure_pending_while_undrained 8 _ _ (.ok 6) (.data (.ok 5)) rfl rfl rfl rfl).1,
   (backpressure_pending_while_undrained 8 _ _ (.ok 6) (.data (.ok 5)) rfl rfl rfl rfl).2.2.1⟩

/-- `create` yields a quiescent state. -/
theorem clean_create (T E : Type) : Clean (create T E) := ⟨rfl, rfl, rfl, rfl⟩

/-- On a quiescent state one canonical round resolves the send immediately,
delivers the payload's outcome to the receiver, and restores the shared state
exactly. -/
theorem sendRecvStep_clean {T E : Type} (stid rtid : Nat) (v : Res T E)
    (r : Receiver) (s : Chan T E) (h : Clean s) :
    sendRecvStep stid rtid v r s = (.ready, outcomeOf v, ⟨none⟩, s) := by
  obtain ⟨sl, oF, oE, nt, rg, wk⟩ := s
  obtain ⟨h1, h2, h3, h4⟩ := h
  simp only at h1 h2 h3 h4
  subst h1; subst h2; subst h3; subst h4
  obtain ⟨tk⟩ := r
  cases tk <;> cases v <;> rfl

/-- The canonical schedule on a quiescent state: every send resolves, the
receiver sees each payload's outcome in order, and the state stays quiescent. -/
theorem sendRecvLoop_clean {T E : Type} (stid rtid : Nat) (vs : List (Res T E))
    (r : Receiver) (s : Chan T E) (h : Clean s) :
    (sendRecvLoop stid rtid vs r s).1 = List.replicate vs.length .ready ∧
    (sendRecvLoop stid rtid vs r s).2.1 = vs.map outcomeOf ∧
    (sendRecvLoop stid rtid vs r s).2.2.2 = s := by
  induction vs generalizing r with
  | nil => exact ⟨rfl, rfl, rfl⟩
  | cons v vs ih =>
    have hstep := sendRecvStep_clean stid rtid v r s h
    have hih := ih (⟨none⟩ : Receiver)
    simp only [sendRecvLoop, hstep, List.length_cons, List.map_cons,
      List.replicate_succ]
    exact ⟨by rw [hih.1], by rw [hih.2.1], hih.2.2⟩

/-- Dropping the sender on a quiescent state writes `Done` immediately (the
deferred on-empty callback fires at registration time). -/
theorem sender_drop_clean {T E : Type} (s : Chan T E) (h : Clean s) :
    Sender.drop s = { s with slot := some .done, nextToken := s.nextToken + 1 } := by
  obtain ⟨sl, oF, oE, nt, rg, wk⟩ := s
  obtain ⟨h1, h2, h3, h4⟩ := h
  simp only at h1 h2 h3 h4
  subst h1; subst h2; subst h3; subst h4
  rfl

/-- C1: for every sequence of payloads sent through a fresh channel under the
canonical alternating schedule, every send resolves successfully, polling the
receiver yields exactly the payloads' outcomes in send order — no loss, no
duplication — and once the sender is dropped the next receiver poll reports
stream exhaustion. -/
theorem no_loss_no_duplication_in_order {T E : Type} (stid rtid : Nat)
    (vs : List (Res T E)) :
    (sendRecvLoop stid rtid vs createReceiver (create T E)).1 =
      List.replicate vs.length .ready ∧
    (sendRecvLoop stid rtid vs createReceiver (create T E)).2.1 = vs.map outcomeOf ∧
    (Receiver.poll rtid (sendRecvLoop stid rtid vs createReceiver (create T E)).2.2.1
        (Sender.drop (sendRecvLoop stid rtid vs createReceiver (create T E)).2.2.2)).1 =
      .exhausted := by
  have hl := sendRecvLoop_clean stid rtid vs createReceiver (create T E) (clean_create T E)
  refine ⟨hl.1, hl.2.1, ?_⟩
  rw [hl.2.2, sender_drop_clean (create T E) (clean_create T E), receiver_poll_fst]

/-- Cancelling can only remove the registered `on_full` callback, never change
or create one. -/
theorem cancelOpt_onFullCb_cases {T E : Type} (rt : Option Nat) (s : Chan T E) :
    (cancelOpt rt s).onFullCb = s.onFullCb ∨ (cancelOpt rt s).onFullCb = none := by
  cases rt with
  | none => exact Or.inl rfl
  | some t =>
    obtain ⟨sl, oF, oE, nt, rg, wk⟩ := s
    rcases oF with _ | ⟨t2, cb2⟩
    · exact Or.inr rfl
    · by_cases h : t2 = t
      · subst h; right; simp [cancelOpt, cancel]
      · left; simp [cancelOpt, cancel, h]

/-- A registered `on_empty` callback survives a cancel carrying a different
token. -/
theorem cancelOpt_onEmptyCb_ne {T E : Type} (rt : Option Nat) (s : Chan T E)
    (tk : Nat) (cb : EmptyCb) (he : s.onEmptyCb = some (tk, cb))
    (hr : ∀ t, rt = some t → t ≠ tk) :
    (cancelOpt rt s).onEmptyCb = some (tk, cb) := by
  cases rt with
  | none => exact he
  | some t =>
    have hne : tk ≠ t := fun h => (hr t rfl) h.symm
    simp [cancelOpt, cancel, he, hne]

/-- Cancelling with the token of the registered `on_empty` callback removes
it. -/
theorem cancel_onEmptyCb_self {T E : Type} (s : Chan T E) (tk : Nat) (cb : EmptyCb)
    (h : s.onEmptyCb = some (tk, cb)) : (cancel s tk).onEmptyCb = none := by
  simp [cancel, h]

/-- Draining a full mailbox with a `writeDone` callback registered: the
message comes out, the callback fires and refills the cell with `Done`, and
both callback slots end up empty (a registered unpark `on_full` callback, if
any, fires on the `Done` write; the receiver-drop drain callback is assumed
absent). -/
theorem tryConsume_writeDone {T E : Type} (s : Chan T E) (m : Message (Res T E))
    (tk : Nat) (hm : s.slot = some m) (he : s.onEmptyCb = some (tk, .writeDone))
    (hF : ∀ t, s.onFullCb ≠ some (t, .drainDiscard)) :
    (tryConsume s).2 = some m ∧
    (tryConsume s).1.slot = some .done ∧
    (tryConsume s).1.onEmptyCb = none ∧
    (tryConsume s).1.onFullCb = none := by
  obtain ⟨sl, oF, oE, nt, rg, wk⟩ := s
  simp only at hm he
  subst hm; subst he
  rcases oF with _ | ⟨t2, cb2⟩
  · exact ⟨rfl, rfl, rfl, rfl⟩
  · cases cb2 with
    | unparkRecv tid2 => exact ⟨rfl, rfl, rfl, rfl⟩
    | drainDiscard => exact absurd rfl (hF t2)

/-- A receiver poll against a full mailbox with a `writeDone` callback
registered (and no drain-on-drop callback): the pending `Done` gets written
into the cell, the callback slots empty out, and the handle retains no
token. -/
theorem receiver_poll_pending_writeDone {T E : Type} (tid : Nat) (r : Receiver)
    (s : Chan T E) (m : Message (Res T E)) (tk : Nat)
    (hm : s.slot = some m) (he : s.onEmptyCb = some (tk, .writeDone))
    (hF : ∀ t, s.onFullCb ≠ some (t, .drainDiscard))
    (hr : ∀ t, r.onFullToken = some t → t ≠ tk) :
    (Receiver.poll tid r s).2.2.slot = some .done ∧
    (Receiver.poll tid r s).2.2.onEmptyCb = none ∧
    (Receiver.poll tid r s).2.1.onFullToken = none := by
  have h1 : (cancelOpt r.onFullToken s).slot = some m := by
    rw [cancelOpt_slot]; exact hm
  have h2 : (cancelOpt r.onFullToken s).onEmptyCb = some (tk, .writeDone) :=
    cancelOpt_onEmptyCb_ne r.onFullToken s tk _ he hr
  have h3 : ∀ t, (cancelOpt r.onFullToken s).onFullCb ≠ some (t, .drainDiscard) := by
    rcases cancelOpt_onFullCb_cases r.onFullToken s with hc | hc
    · rw [hc]; exact hF
    · rw [hc]; intro t hcontra; exact Option.noConfusion hcontra
  have h4 := tryConsume_writeDone (cancelOpt r.onFullToken s) m tk h1 h2 h3
  simp only [Receiver.poll]
  rcases hq : tryConsume (cancelOpt r.onFullToken s) with ⟨s2, msg⟩
  rw [hq] at h4
  have hmsg : msg = some m := h4.1
  subst hmsg
  have ha : s2.slot = some .done := h4.2.1
  have hb : s2.onEmptyCb = none := h4.2.2.1
  cases m with
  | done => exact ⟨ha, hb, rfl⟩
  | data a => cases a with
    | ok v => exact ⟨ha, hb, rfl⟩
    | err e => exact ⟨ha, hb, rfl⟩

/-- Dropping the sender while the mailbox is full defers the `Done` write: the
callback is stored under a fresh token and nothing else changes. -/
theorem sender_drop_full {T E : Type} (s : Chan T E) (m : Message (Res T E))
    (hm : s.slot = some m) :
    Sender.drop s =
      { s with nextToken := s.nextToken + 1,
               onEmptyCb := some (s.nextToken, .writeDone) } := by
  obtain ⟨sl, oF, oE, nt, rg, wk⟩ := s
  simp only at hm
  subst hm
  rfl

/-- Dropping the sender while the mailbox is empty writes `Done` immediately
(the freshly registered on-empty callback fires at registration time), firing
a registered unpark `on_full` callback if any; the `on_empty` slot is left as
it was. -/
theorem sender_drop_empty {T E : Type} (s : Chan T E) (h : s.slot = none)
    (hF : ∀ t, s.onFullCb ≠ some (t, .drainDiscard)) :
    (Sender.drop s).slot = some .done ∧ (Sender.drop s).onEmptyCb = s.onEmptyCb := by
  obtain ⟨sl, oF, oE, nt, rg, wk⟩ := s
  simp only at h
  subst h
  rcases oF with _ | ⟨t2, cb2⟩
  · exact ⟨rfl, rfl⟩
  · cases cb2 with
    | unparkRecv tid2 => exact ⟨rfl, rfl⟩
    | drainDiscard => exact absurd rfl (hF t2)

/-- C4: dropping the `Sender` registers the deferred `Done` write: if the
mailbox is empty the `Done` message lands at once and the next receiver poll
reports exhaustion; if a message is still undrained the `writeDone` callback
is registered under a fresh token and the receiver, polled twice (draining
the pending message pumps the callback), reports exhaustion on the second
poll — never pending indefinitely. -/
theorem sender_drop_eventual_exhaustion {T E : Type} (rtid : Nat) (r : Receiver)
    (s : Chan T E)
    (_hE : s.onEmptyCb = none)
    (hF : ∀ t, s.onFullCb ≠ some (t, .drainDiscard))
    (hr : ∀ t, r.onFullToken = some t → t < s.nextToken) :
    (s.slot = none →
      (Sender.drop s).slot = some .done ∧
      (Receiver.poll rtid r (Sender.drop s)).1 = .exhausted) ∧
    (∀ m, s.slot = some m →
      (Sender.drop s).onEmptyCb = some (s.nextToken, .writeDone) ∧
      (Receiver.poll rtid (Receiver.poll rtid r (Sender.drop s)).2.1
          (Receiver.poll rtid r (Sender.drop s)).2.2).1 = .exhausted) := by
  constructor
  · intro hempty
    have hd := sender_drop_empty s hempty hF
    refine ⟨hd.1, ?_⟩
    rw [receiver_poll_fst, hd.1]
  · intro m hfull
    have hd := sender_drop_full s m hfull
    refine ⟨by rw [hd], ?_⟩
    have hp := receiver_poll_pending_writeDone rtid r (Sender.drop s) m s.nextToken
      (by rw [hd]; exact hfull) (by rw [hd])
      (by rw [hd]; exact hF)
      (fun t ht => Nat.ne_of_lt (hr t ht))
    rw [receiver_poll_fst, hp.1]

/-- Witness for C4: empty-slot case on a fresh channel, and full-slot case
with `Data(Ok(1))` undrained. -/
theorem sender_drop_eventual_exhaustion_witness :
    ((Sender.drop (create Nat Nat)).slot = some .done ∧
      (Receiver.poll 0 createReceiver (Sender.drop (create Nat Nat))).1 = .exhausted) ∧
    ((Sender.drop (⟨some (.data (.ok 1)), none, none, 0, false, []⟩ : Chan Nat Nat)).onEmptyCb =
        some (0, .writeDone) ∧
      (Receiver.poll 0
          (Receiver.poll 0 createReceiver
            (Sender.drop (⟨some (.data (.ok 1)), none, none, 0, false, []⟩ : Chan Nat Nat))).2.1
          (Receiver.poll 0 createReceiver
            (Sender.drop (⟨some (.data (.ok 1)), none, none, 0, false, []⟩ : Chan Nat Nat))).2.2).1 =
        .exhausted) :=
  ⟨(sender_drop_eventual_exhaustion 0 createReceiver (create Nat Nat) rfl
      (fun _ h => Option.noConfusion h) (fun _ ht => Option.noConfusion ht)).1 rfl,
   (sender_drop_eventual_exhaustion 0 createReceiver
      (⟨some (.data (.ok 1)), none, none, 0, false, []⟩ : Chan Nat Nat) rfl
      (fun _ h => Option.noConfusion h) (fun _ ht => Option.noConfusion ht)).2
     (.data (.ok 1)) rfl⟩

/-- Unresolved-`FutureSender` teardown reduces to cancelling the retained
token and dropping the embedded sender. -/
theorem futureSender_drop_eq {T E : Type} (f : FutureSender T E) (s : Chan T E)
    (hs : f.sender = true) :
    FutureSender.drop f s = Sender.drop (cancelOpt f.onEmptyToken s) := by
  obtain ⟨sd, dt, tk⟩ := f
  simp only at hs
  subst hs
  cases tk <;> rfl

/-- C9: dropping a still-unresolved `FutureSender` discards its payload — it
is never delivered — and drops the embedded sender, which registers the
deferred `Done` write.  If the handshake had never produced (empty mailbox,
no registration) the mailbox now holds `Done` and the next receiver poll
reports exhaustion; if it was suspended on a full mailbox (its unpark
callback registered under its retained token) that registration is cancelled,
the `writeDone` callback takes its place, and the receiver drains the older
message and then reports exhaustion — never the dropped payload. -/
theorem futureSender_drop_discards_payload {T E : Type} (rtid : Nat)
    (f : FutureSender T E) (r : Receiver) (s : Chan T E)
    (hs : f.sender = true)
    (hF : ∀ t, s.onFullCb ≠ some (t, .drainDiscard))
    (hr : ∀ t, r.onFullToken = some t → t < s.nextToken) :
    (s.slot = none → s.onEmptyCb = none → f.onEmptyToken = none →
      (FutureSender.drop f s).slot = some .done ∧
      (Receiver.poll rtid r (FutureSender.drop f s)).1 = .exhausted) ∧
    (∀ m tk0 tid0, s.slot = some m → s.onEmptyCb = some (tk0, .unparkSend tid0) →
      f.onEmptyToken = some tk0 →
      (FutureSender.drop f s).slot = some m ∧
      (FutureSender.drop f s).onEmptyCb = some (s.nextToken, .writeDone) ∧
      (Receiver.poll rtid (Receiver.poll rtid r (FutureSender.drop f s)).2.1
          (Receiver.poll rtid r (FutureSender.drop f s)).2.2).1 = .exhausted) := by
  constructor
  · intro hempty hE htk
    rw [futureSender_drop_eq f s hs, htk]
    have hd := sender_drop_empty (cancelOpt none s) hempty hF
    exact ⟨hd.1, by rw [receiver_poll_fst, hd.1]⟩
  · intro m tk0 tid0 hfull hcb htk
    rw [futureSender_drop_eq f s hs, htk]
    simp only [cancelOpt]
    have hc1 : (cancel s tk0).slot = some m := hfull
    have hc3 : ∀ t, (cancel s tk0).onFullCb ≠ some (t, .drainDiscard) := by
      rcases cancelOpt_onFullCb_cases (some tk0) s with hc | hc
      · rw [show (cancel s tk0).onFullCb = s.onFullCb from hc]; exact hF
      · rw [show (cancel s tk0).onFullCb = none from hc]
        intro t hcontra; exact Option.noConfusion hcontra
    have hd := sender_drop_full (cancel s tk0) m hc1
    have hnt : (cancel s tk0).nextToken = s.nextToken := rfl
    rw [hnt] at hd
    refine ⟨by rw [hd]; exact hc1, by rw [hd], ?_⟩
    have hp := receiver_poll_pending_writeDone rtid r (Sender.drop (cancel s tk0)) m
      s.nextToken (by rw [hd]; exact hc1) (by rw [hd])
      (by rw [hd]; exact hc3)
      (fun t ht => Nat.ne_of_lt (hr t ht))
    rw [receiver_poll_fst, hp.1]

/-- Witness for C9: dropping a never-polled send on a fresh channel yields
`Done` and exhaustion; dropping a suspended send (payload `Ok(7)` pending on
`Data(Ok(1))`) keeps the older message, swaps in `writeDone`, and the second
receiver poll reports exhaustion. -/
theorem futureSender_drop_discards_payload_witness :
    ((FutureSender.drop (Sender.send (T := Nat) (E := Nat) (.ok 7)) (create Nat Nat)).slot =
        some .done ∧
      (Receiver.poll 0 createReceiver
          (FutureSender.drop (Sender.send (.ok 7)) (create Nat Nat))).1 = .exhausted) ∧
    ((FutureSender.drop (⟨true, some (.ok 7), some 0⟩ : FutureSender Nat Nat)
        (⟨some (.data (.ok 1)), none, some (0, .unparkSend 5), 1, false, []⟩ : Chan Nat Nat)).onEmptyCb =
        some (1, .writeDone) ∧
      (Receiver.poll 0
          (Receiver.poll 0 createReceiver
            (FutureSender.drop (⟨true, some (.ok 7), some 0⟩ : FutureSender Nat Nat)
              (⟨some (.data (.ok 1)), none, some (0, .unparkSend 5), 1, false, []⟩ : Chan Nat Nat))).2.1
          (Receiver.poll 0 createReceiver
            (FutureSender.drop (⟨true, some (.ok 7), some 0⟩ : FutureSender Nat Nat)
              (⟨some (.data (.ok 1)), none, some (0, .unparkSend 5), 1, false, []⟩ : Chan Nat Nat))).2.2).1 =
        .exhausted) :=
  ⟨(futureSender_drop_discards_payload 0 (Sender.send (.ok 7)) createReceiver
      (create Nat Nat) rfl (fun _ h => Option.noConfusion h)
      (fun _ ht => Option.noConfusion ht)).1 rfl rfl rfl,
   ⟨((futureSender_drop_discards_payload 0 (⟨true, some (.ok 7), some 0⟩ : FutureSender Nat Nat)
        createReceiver
        (⟨some (.data (.ok 1)), none, some (0, .unparkSend 5), 1, false, []⟩ : Chan Nat Nat) rfl
        (fun _ h => Option.noConfusion h) (fun _ ht => Option.noConfusion ht)).2
      (.data (.ok 1)) 0 5 rfl rfl rfl).2.1,
    ((futureSender_drop_discards_payload 0 (⟨true, some (.ok 7), some 0⟩ : FutureSender Nat Nat)
        createReceiver
        (⟨some (.data (.ok 1)), none, some (0, .unparkSend 5), 1, false, []⟩ : Chan Nat Nat) rfl
        (fun _ h => Option.noConfusion h) (fun _ ht => Option.noConfusion ht)).2
      (.data (.ok 1)) 0 5 rfl rfl rfl).2.2⟩⟩

/-- Cancelling never creates an `on_empty` registration. -/
theorem cancelOpt_onEmptyCb_none {T E : Type} (rt : Option Nat) (s : Chan T E)
    (h : s.onEmptyCb = none) : (cancelOpt rt s).onEmptyCb = none := by
  cases rt with
  | none => exact h
  | some t => simp [cancelOpt, cancel, h]

/-- Draining a full mailbox with no `on_empty` callback registered just takes
the message out. -/
theorem tryConsume_noEmptyCb {T E : Type} (s : Chan T E) (m : Message (Res T E))
    (hm : s.slot = some m) (he : s.onEmptyCb = none) :
    tryConsume s = ({ s with slot := none }, some m) := by
  obtain ⟨sl, oF, oE, nt, rg, wk⟩ := s
  simp only at hm he
  subst hm; subst he
  rfl

/-- After draining `Done` (with nothing left to refill the cell), the mailbox
is empty. -/
theorem receiver_poll_done_state {T E : Type} (tid : Nat) (r : Receiver)
    (s : Chan T E) (hs : s.slot = some .done) (hE : s.onEmptyCb = none) :
    (Receiver.poll tid r s).2.2.slot = none := by
  have h1 : (cancelOpt r.onFullToken s).slot = some .done := by
    rw [cancelOpt_slot]; exact hs
  have h2 : (cancelOpt r.onFullToken s).onEmptyCb = none :=
    cancelOpt_onEmptyCb_none r.onFullToken s hE
  simp only [Receiver.poll]
  rw [tryConsume_noEmptyCb _ _ h1 h2]

/-- A receiver poll on an empty mailbox reports pending and leaves the mailbox
empty (nothing in the poll path can refill it). -/
theorem receiver_poll_empty_state {T E : Type} (tid : Nat) (r : Receiver)
    (s : Chan T E) (h : s.slot = none) :
    (Receiver.poll tid r s).1 = .notReady ∧ (Receiver.poll tid r s).2.2.slot = none := by
  rw [receiver_poll_empty tid r s h]
  exact ⟨rfl, by rw [cancelOpt_slot]; exact h⟩

/-- Iterated receiver polls on an empty mailbox are pending forever. -/
theorem pollIter_empty {T E : Type} (tid : Nat) (n : Nat) (r : Receiver)
    (s : Chan T E) (h : s.slot = none) :
    (pollIter tid n r s).1 = List.replicate n .notReady ∧
    (pollIter tid n r s).2.2.slot = none := by
  induction n generalizing r s with
  | zero => exact ⟨rfl, h⟩
  | succ n ih =>
    have hp := receiver_poll_empty_state tid r s h
    have hq := ih (Receiver.poll tid r s).2.1 (Receiver.poll tid r s).2.2 hp.2
    simp only [pollIter, List.replicate_succ]
    exact ⟨by rw [hp.1, hq.1], hq.2⟩

/-- C8: once a receiver poll has drained `Done` and reported exhaustion, every
later poll finds the mailbox empty and reports pending — exhaustion is
reported exactly once, never repeated. -/
theorem exhaustion_reported_once {T E : Type} (tid : Nat) (r : Receiver)
    (s : Chan T E) (hs : s.slot = some .done) (hE : s.onEmptyCb = none) :
    (Receiver.poll tid r s).1 = .exhausted ∧
    ∀ n, (pollIter tid n (Receiver.poll tid r s).2.1 (Receiver.poll tid r s).2.2).1 =
      List.replicate n .notReady := by
  refine ⟨by rw [receiver_poll_fst, hs], fun n => ?_⟩
  exact (pollIter_empty tid n _ _ (receiver_poll_done_state tid r s hs hE)).1

/-- Witness for C8: a `Done`-holding mailbox yields exhaustion once, then
three pending polls. -/
theorem exhaustion_reported_once_witness :
    (Receiver.poll 0 createReceiver
        (⟨some .done, none, none, 0, false, []⟩ : Chan Nat Nat)).1 = .exhausted ∧
    (pollIter 0 3
        (Receiver.poll 0 createReceiver
          (⟨some .done, none, none, 0, false, []⟩ : Chan Nat Nat)).2.1
        (Receiver.poll 0 createReceiver
          (⟨some .done, none, none, 0, false, []⟩ : Chan Nat Nat)).2.2).1 =
      List.replicate 3 .notReady :=
  ⟨(exhaustion_reported_once 0 createReceiver _ rfl rfl).1,
   (exhaustion_reported_once 0 createReceiver _ rfl rfl).2 3⟩

/-- A mailbox operation can only keep or remove (by firing) a registered
callback — never alter or create one. -/
theorem slotOp_cbs {T E : Type} (fuel : Nat) (act : SlotAct T E) (s : Chan T E) :
    ((slotOp fuel act s).1.onFullCb = s.onFullCb ∨ (slotOp fuel act s).1.onFullCb = none) ∧
    ((slotOp fuel act s).1.onEmptyCb = s.onEmptyCb ∨ (slotOp fuel act s).1.onEmptyCb = none) := by
  induction fuel generalizing act s with
  | zero =>
    obtain ⟨sl, oF, oE, nt, rg, wk⟩ := s
    cases act <;> cases sl <;> exact ⟨Or.inl rfl, Or.inl rfl⟩
  | succ fuel ih =>
    obtain ⟨sl, oF, oE, nt, rg, wk⟩ := s
    cases act with
    | produce m =>
      cases sl with
      | some m0 => exact ⟨Or.inl rfl, Or.inl rfl⟩
      | none =>
        rcases oF with _ | ⟨t2, cb2⟩
        · exact ⟨Or.inl rfl, Or.inl rfl⟩
        · cases cb2 with
          | unparkRecv tid2 => exact ⟨Or.inr rfl, Or.inl rfl⟩
          | drainDiscard =>
            have h := ih .consume ⟨some m, none, oE, nt, rg, wk⟩
            refine ⟨?_, ?_⟩
            · rcases h.1 with h' | h' <;> exact Or.inr h'
            · rcases h.2 with h' | h'
              · exact Or.inl h'
              · exact Or.inr h'
    | consume =>
      cases sl with
      | none => exact ⟨Or.inl rfl, Or.inl rfl⟩
      | some m =>
        rcases oE with _ | ⟨t2, cb2⟩
        · exact ⟨Or.inl rfl, Or.inl rfl⟩
        · cases cb2 with
          | unparkSend tid2 => exact ⟨Or.inl rfl, Or.inr rfl⟩
          | writeDone =>
            have h := ih (.produce .done) ⟨none, oF, none, nt, rg, wk⟩
            refine ⟨?_, ?_⟩
            · rcases h.1 with h' | h'
              · exact Or.inl h'
              · exact Or.inr h'
            · rcases h.2 with h' | h' <;> exact Or.inr h'

/-- A mailbox operation never touches the token counter. -/
theorem slotOp_nextToken {T E : Type} (fuel : Nat) (act : SlotAct T E) (s : Chan T E) :
    (slotOp fuel act s).1.nextToken = s.nextToken := by
  induction fuel generalizing act s with
  | zero =>
    obtain ⟨sl, oF, oE, nt, rg, wk⟩ := s
    cases act <;> cases sl <;> rfl
  | succ fuel ih =>
    obtain ⟨sl, oF, oE, nt, rg, wk⟩ := s
    cases act with
    | produce m =>
      cases sl with
      | some m0 => rfl
      | none =>
        rcases oF with _ | ⟨t2, cb2⟩
        · rfl
        · cases cb2 with
          | unparkRecv tid2 => rfl
          | drainDiscard => exact ih .consume ⟨some m, none, oE, nt, rg, wk⟩
    | consume =>
      cases sl with
      | none => rfl
      | some m =>
        rcases oE with _ | ⟨t2, cb2⟩
        · rfl
        · cases cb2 with
          | unparkSend tid2 => rfl
          | writeDone => exact ih (.produce .done) ⟨none, oF, none, nt, rg, wk⟩

/-- After `cancel s t`, no `on_full` registration can carry token `t`. -/
theorem cancel_onFullCb_ne_self {T E : Type} (s : Chan T E) (t : Nat) (cb : FullCb) :
    (cancel s t).onFullCb ≠ some (t, cb) := by
  obtain ⟨sl, oF, oE, nt, rg, wk⟩ := s
  rcases oF with _ | ⟨t2, cb2⟩
  · simp [cancel]
  · by_cases h : t2 = t
    · simp [cancel, h]
    · simp [cancel, h]

/-- After `cancel s t`, no `on_empty` registration can carry token `t`. -/
theorem cancel_onEmptyCb_ne_self {T E : Type} (s : Chan T E) (t : Nat) (cb : EmptyCb) :
    (cancel s t).onEmptyCb ≠ some (t, cb) := by
  obtain ⟨sl, oF, oE, nt, rg, wk⟩ := s
  rcases oE with _ | ⟨t2, cb2⟩
  · simp [cancel]
  · by_cases h : t2 = t
    · simp [cancel, h]
    · simp [cancel, h]

/-- A rejected produce hands the caller's own message back and changes
nothing; it can only happen against a full cell. -/
theorem tryProduce_rejected {T E : Type} (m : Message (Res T E)) (s : Chan T E)
    (s2 : Chan T E) (rej : Message (Res T E)) (h : tryProduce m s = (s2, some rej)) :
    s2 = s ∧ rej = m ∧ ∃ m0, s.slot = some m0 := by
  obtain ⟨sl, oF, oE, nt, rg, wk⟩ := s
  cases sl with
  | some m0 =>
    have h1 := congrArg Prod.fst h
    have h2 := congrArg Prod.snd h
    exact ⟨h1.symm, Option.some.inj h2.symm, m0, rfl⟩
  | none =>
    rcases oF with _ | ⟨t2, cb2⟩
    · exact Option.noConfusion (congrArg Prod.snd h)
    · cases cb2 with
      | unparkRecv tid2 => exact Option.noConfusion (congrArg Prod.snd h)
      | drainDiscard => exact Option.noConfusion (congrArg Prod.snd h)

/-- Registering `on_empty` against a full cell stores the callback under a
fresh token. -/
theorem onEmpty_full {T E : Type} (cb : EmptyCb) (s : Chan T E) (m : Message (Res T E))
    (hm : s.slot = some m) :
    onEmpty cb s = (s.nextToken,
      { s with nextToken := s.nextToken + 1, onEmptyCb := some (s.nextToken, cb) }) := by
  obtain ⟨sl, oF, oE, nt, rg, wk⟩ := s
  simp only at hm
  subst hm
  rfl

/-- `Sender::drop` keeps or fires the `on_full` registration and either keeps
the `on_empty` slot, fires it, or stores `writeDone` under the fresh token. -/
theorem sender_drop_cbs {T E : Type} (s : Chan T E) :
    ((Sender.drop s).onFullCb = s.onFullCb ∨ (Sender.drop s).onFullCb = none) ∧
    ((Sender.drop s).onEmptyCb = s.onEmptyCb ∨ (Sender.drop s).onEmptyCb = none ∨
      (Sender.drop s).onEmptyCb = some (s.nextToken, .writeDone)) := by
  obtain ⟨sl, oF, oE, nt, rg, wk⟩ := s
  cases sl with
  | some m => exact ⟨Or.inl rfl, Or.inr (Or.inr rfl)⟩
  | none =>
    have h := slotOp_cbs 4 (.produce .done) (⟨none, oF, oE, nt + 1, rg, wk⟩ : Chan T E)
    refine ⟨?_, ?_⟩
    · rcases h.1 with h' | h'
      · exact Or.inl h'
      · exact Or.inr h'
    · rcases h.2 with h' | h'
      · exact Or.inl h'
      · exact Or.inr (Or.inl h')

/-- C6: both handles keep at most one live wakeup registration: a poll that
starts holding token `t` (fresh tokens are larger) leaves no registration
carrying `t` in either callback slot — the stale one is cancelled before any
new registration — and the handle ends up retaining either no token or only
the freshly issued one. -/
theorem single_live_registration {T E : Type} (tid t : Nat) (r : Receiver)
    (f : FutureSender T E) (s : Chan T E) :
    (r.onFullToken = some t → t < s.nextToken →
      (∀ cb, (Receiver.poll tid r s).2.2.onFullCb ≠ some (t, cb)) ∧
      (∀ cb, (Receiver.poll tid r s).2.2.onEmptyCb ≠ some (t, cb)) ∧
      ((Receiver.poll tid r s).2.1.onFullToken = none ∨
        (Receiver.poll tid r s).2.1.onFullToken = some s.nextToken)) ∧
    (f.onEmptyToken = some t → t < s.nextToken → f.sender = true →
      ∀ d, f.data = some d →
        (∀ cb, (FutureSender.poll tid f s).2.2.onFullCb ≠ some (t, cb)) ∧
        (∀ cb, (FutureSender.poll tid f s).2.2.onEmptyCb ≠ some (t, cb)) ∧
        ((FutureSender.poll tid f s).2.1.onEmptyToken = none ∨
          (FutureSender.poll tid f s).2.1.onEmptyToken = some s.nextToken)) := by
  constructor
  · intro htk hlt
    rcases hsl : s.slot with _ | m
    · rw [receiver_poll_empty tid r s hsl, htk]
      refine ⟨?_, ?_, Or.inr rfl⟩
      · intro cb hcontra
        simp only [Option.some.injEq, Prod.mk.injEq] at hcontra
        exact absurd hcontra.1 (by omega)
      · intro cb hcontra
        exact cancel_onEmptyCb_ne_self s t cb hcontra
    · simp only [Receiver.poll]
      rcases hq : tryConsume (cancelOpt r.onFullToken s) with ⟨s2, msg⟩
      have hmsg : msg = some m := by
        have h0 := tryConsume_snd (cancelOpt r.onFullToken s)
        rw [hq, cancelOpt_slot, hsl] at h0
        exact h0
      subst hmsg
      have h0 := slotOp_cbs 4 .consume (cancelOpt r.onFullToken s)
      rw [show slotOp 4 .consume (cancelOpt r.onFullToken s) = (s2, some m) from hq] at h0
      have hFne : ∀ cb, s2.onFullCb ≠ some (t, cb) := by
        intro cb
        rcases h0.1 with h' | h'
        · rw [h', htk]; exact cancel_onFullCb_ne_self s t cb
        · rw [h']; exact fun hc => Option.noConfusion hc
      have hEne : ∀ cb, s2.onEmptyCb ≠ some (t, cb) := by
        intro cb
        rcases h0.2 with h' | h'
        · rw [h', htk]; exact cancel_onEmptyCb_ne_self s t cb
        · rw [h']; exact fun hc => Option.noConfusion hc
      cases m with
      | done => exact ⟨hFne, hEne, Or.inl rfl⟩
      | data a => cases a with
        | ok v => exact ⟨hFne, hEne, Or.inl rfl⟩
        | err e => exact ⟨hFne, hEne, Or.inl rfl⟩
  · intro htk hlt hsend d hd
    have hXc : cancelOpt f.onEmptyToken s = cancel s t := by rw [htk]; rfl
    simp only [FutureSender.poll, hd, hsend, hXc]
    cases hrg : s.receiverGone with
    | true =>
      have h1 : (cancel s t).receiverGone = true := hrg
      rw [if_pos h1]
      refine ⟨?_, ?_, Or.inl rfl⟩
      · intro cb hcontra
        rcases (sender_drop_cbs (cancel s t)).1 with h' | h'
        · rw [h'] at hcontra; exact cancel_onFullCb_ne_self s t cb hcontra
        · rw [h'] at hcontra; exact Option.noConfusion hcontra
      · intro cb hcontra
        rcases (sender_drop_cbs (cancel s t)).2 with h' | h' | h'
        · rw [h'] at hcontra; exact cancel_onEmptyCb_ne_self s t cb hcontra
        · rw [h'] at hcontra; exact Option.noConfusion hcontra
        · rw [h'] at hcontra
          simp only [Option.some.injEq, Prod.mk.injEq] at hcontra
          have hnt : (cancel s t).nextToken = s.nextToken := rfl
          rw [hnt] at hcontra
          exact absurd hcontra.1 (by omega)
    | false =>
      have h1 : (cancel s t).receiverGone = false := hrg
      simp only [h1, Bool.false_eq_true, if_false]
      rcases hq : tryProduce (.data d) (cancel s t) with ⟨s2, rej⟩
      cases rej with
      | none =>
        have h0 := slotOp_cbs 4 (.produce (.data d)) (cancel s t)
        rw [show slotOp 4 (.produce (.data d)) (cancel s t) = (s2, none) from hq] at h0
        refine ⟨?_, ?_, Or.inl rfl⟩
        · intro cb hcontra
          rcases h0.1 with h' | h'
          · rw [h'] at hcontra; exact cancel_onFullCb_ne_self s t cb hcontra
          · rw [h'] at hcontra; exact Option.noConfusion hcontra
        · intro cb hcontra
          rcases h0.2 with h' | h'
          · rw [h'] at hcontra; exact cancel_onEmptyCb_ne_self s t cb hcontra
          · rw [h'] at hcontra; exact Option.noConfusion hcontra
      | some rejm =>
        obtain ⟨hs2, hrejm, m0, hm0⟩ := tryProduce_rejected (.data d) (cancel s t) s2 rejm hq
        subst hs2
        subst hrejm
        show
          (∀ cb, (onEmpty (.unparkSend tid) (cancel s t)).2.onFullCb ≠ some (t, cb)) ∧
          (∀ cb, (onEmpty (.unparkSend tid) (cancel s t)).2.onEmptyCb ≠ some (t, cb)) ∧
          (some (onEmpty (.unparkSend tid) (cancel s t)).1 = none ∨
            some (onEmpty (.unparkSend tid) (cancel s t)).1 = some s.nextToken)
        rw [onEmpty_full (.unparkSend tid) (cancel s t) m0 hm0]
        have hnt : (cancel s t).nextToken = s.nextToken := rfl
        refine ⟨?_, ?_, Or.inr (by rw [hnt])⟩
        · intro cb hcontra
          exact cancel_onFullCb_ne_self s t cb hcontra
        · intro cb hcontra
          simp only [Option.some.injEq, Prod.mk.injEq] at hcontra
          rw [hnt] at hcontra
          exact absurd hcontra.1 (by omega)

/-- Witness for C6: a parked receiver (token 0) re-polled against an empty
mailbox, and a suspended sender (token 0) re-polled against a full mailbox;
neither leaves a token-0 registration behind. -/
theorem single_live_registration_witness :
    ((Receiver.poll 4 (⟨some 0⟩ : Receiver)
        (⟨none, some (0, .unparkRecv 4), none, 1, false, []⟩ : Chan Nat Nat)).2.2.onFullCb ≠
      some (0, .unparkRecv 4)) ∧
    ((FutureSender.poll 5 (⟨true, some (.ok 9), some 0⟩ : FutureSender Nat Nat)
        (⟨some (.data (.ok 1)), none, some (0, .unparkSend 5), 1, false, []⟩ : Chan Nat Nat)).2.2.onEmptyCb ≠
      some (0, .unparkSend 5)) :=
  ⟨((single_live_registration 4 0 (⟨some 0⟩ : Receiver)
      (⟨true, none, none⟩ : FutureSender Nat Nat)
      (⟨none, some (0, .unparkRecv 4), none, 1, false, []⟩ : Chan Nat Nat)).1
      rfl (by decide)).1 (.unparkRecv 4),
   (((single_live_registration 5 0 (⟨none⟩ : Receiver)
      (⟨true, some (.ok 9), some 0⟩ : FutureSender Nat Nat)
      (⟨some (.data (.ok 1)), none, some (0, .unparkSend 5), 1, false, []⟩ : Chan Nat Nat)).2
      rfl (by decide) rfl (.ok 9) rfl).2.1) (.unparkSend 5)⟩

/-- Cancelling can only remove the registered `on_empty` callback, never
change or create one. -/
theorem cancelOpt_onEmptyCb_cases {T E : Type} (rt : Option Nat) (s : Chan T E) :
    (cancelOpt rt s).onEmptyCb = s.onEmptyCb ∨ (cancelOpt rt s).onEmptyCb = none := by
  cases rt with
  | none => exact Or.inl rfl
  | some t =>
    obtain ⟨sl, oF, oE, nt, rg, wk⟩ := s
    rcases oE with _ | ⟨t2, cb2⟩
    · exact Or.inr rfl
    · by_cases h : t2 = t
      · subst h; right; simp [cancelOpt, cancel]
      · left; simp [cancelOpt, cancel, h]

/-- Registering `on_full` against an empty cell stores the callback under a
fresh token. -/
theorem onFull_empty {T E : Type} (cb : FullCb) (s : Chan T E) (h : s.slot = none) :
    onFull cb s = (s.nextToken,
      { s with nextToken := s.nextToken + 1, onFullCb := some (s.nextToken, cb) }) := by
  obtain ⟨sl, oF, oE, nt, rg, wk⟩ := s
  simp only at h
  subst h
  rfl

/-- Registering `on_full` against a full cell fires the callback at once. -/
theorem onFull_full {T E : Type} (cb : FullCb) (s : Chan T E) (m : Message (Res T E))
    (h : s.slot = some m) :
    onFull cb s = (s.nextToken, fireFull cb { s with nextToken := s.nextToken + 1 }) := by
  obtain ⟨sl, oF, oE, nt, rg, wk⟩ := s
  simp only at h
  subst h
  rfl

/-- After a successful produce with no `writeDone` callback registered, the
cell holds the produced message, unless a drain-on-drop callback consumed it
at once — it can never hold `Done`. -/
theorem tryProduce_success_slot {T E : Type} (m : Message (Res T E)) (s : Chan T E)
    (h2 : (tryProduce m s).2 = none)
    (hE : ∀ tk, s.onEmptyCb ≠ some (tk, .writeDone)) :
    (tryProduce m s).1.slot = some m ∨ (tryProduce m s).1.slot = none := by
  obtain ⟨sl, oF, oE, nt, rg, wk⟩ := s
  cases sl with
  | some m0 => exact Option.noConfusion h2
  | none =>
    rcases oF with _ | ⟨t2, cb2⟩
    · exact Or.inl rfl
    · cases cb2 with
      | unparkRecv tid2 => exact Or.inl rfl
      | drainDiscard =>
        rcases oE with _ | ⟨t3, cb3⟩
        · exact Or.inr rfl
        · cases cb3 with
          | unparkSend tid3 => exact Or.inr rfl
          | writeDone => exact absurd rfl (hE t3)

/-- With no `writeDone` callback registered, a drain attempt always leaves the
cell empty. -/
theorem tryConsume_slot_none {T E : Type} (s : Chan T E)
    (hE : ∀ tk, s.onEmptyCb ≠ some (tk, .writeDone)) :
    (tryConsume s).1.slot = none := by
  obtain ⟨sl, oF, oE, nt, rg, wk⟩ := s
  cases sl with
  | none => rfl
  | some m =>
    rcases oE with _ | ⟨t3, cb3⟩
    · rfl
    · cases cb3 with
      | unparkSend tid3 => rfl
      | writeDone => exact absurd rfl (hE t3)

/-- Registering the receiver-drop drain callback (with no `writeDone`
callback registered) leaves the cell empty — either it was empty and the
callback is stored, or it was full and the callback fired and discarded the
message — and introduces no `writeDone` registration. -/
theorem onFull_drainDiscard_state {T E : Type} (s : Chan T E)
    (hE : ∀ tk, s.onEmptyCb ≠ some (tk, .writeDone)) :
    ((onFull .drainDiscard s).2).slot = none ∧
    (∀ tk, ((onFull .drainDiscard s).2).onEmptyCb ≠ some (tk, .writeDone)) := by
  rcases hsl : s.slot with _ | m
  · rw [onFull_empty _ _ hsl]
    exact ⟨hsl, hE⟩
  · rw [onFull_full _ _ m hsl]
    constructor
    · exact tryConsume_slot_none ({ s with nextToken := s.nextToken + 1 } : Chan T E) hE
    · intro tk
      have h0 := (slotOp_cbs 4 .consume ({ s with nextToken := s.nextToken + 1 } : Chan T E)).2
      have h0' :
          (fireFull .drainDiscard ({ s with nextToken := s.nextToken + 1 } : Chan T E)).onEmptyCb =
            ({ s with nextToken := s.nextToken + 1 } : Chan T E).onEmptyCb ∨
          (fireFull .drainDiscard ({ s with nextToken := s.nextToken + 1 } : Chan T E)).onEmptyCb =
            none := h0
      rcases h0' with h' | h'
      · rw [h']; exact hE tk
      · rw [h']; exact fun hc => Option.noConfusion hc

/-- A receiver poll never writes into the mailbox (given no `writeDone`
callback is pending) and never registers a `writeDone` callback. -/
theorem receiver_poll_state_inv {T E : Type} (tid : Nat) (r : Receiver) (s : Chan T E)
    (hE : ∀ tk, s.onEmptyCb ≠ some (tk, .writeDone)) :
    (Receiver.poll tid r s).2.2.slot = none ∧
    (∀ tk, (Receiver.poll tid r s).2.2.onEmptyCb ≠ some (tk, .writeDone)) := by
  have hE1 : ∀ tk, (cancelOpt r.onFullToken s).onEmptyCb ≠ some (tk, .writeDone) := by
    intro tk
    rcases cancelOpt_onEmptyCb_cases r.onFullToken s with h' | h'
    · rw [h']; exact hE tk
    · rw [h']; exact fun hc => Option.noConfusion hc
  rcases hsl : s.slot with _ | m
  · rw [receiver_poll_empty tid r s hsl]
    constructor
    · show (cancelOpt r.onFullToken s).slot = none
      rw [cancelOpt_slot]; exact hsl
    · intro tk
      show (cancelOpt r.onFullToken s).onEmptyCb ≠ some (tk, .writeDone)
      exact hE1 tk
  · simp only [Receiver.poll]
    rcases hq : tryConsume (cancelOpt r.onFullToken s) with ⟨s2, msg⟩
    have hmsg : msg = some m := by
      have h0 := tryConsume_snd (cancelOpt r.onFullToken s)
      rw [hq, cancelOpt_slot, hsl] at h0
      exact h0
    subst hmsg
    have hslot : s2.slot = none := by
      have h0 := tryConsume_slot_none (cancelOpt r.onFullToken s) hE1
      rw [hq] at h0
      exact h0
    have hcb : ∀ tk, s2.onEmptyCb ≠ some (tk, .writeDone) := by
      intro tk
      have h0 := slotOp_cbs 4 .consume (cancelOpt r.onFullToken s)
      rw [show slotOp 4 .consume (cancelOpt r.onFullToken s) = (s2, some m) from hq] at h0
      have h0' : s2.onEmptyCb = (cancelOpt r.onFullToken s).onEmptyCb ∨ s2.onEmptyCb = none :=
        h0.2
      rcases h0' with h' | h'
      · rw [h']; exact hE1 tk
      · rw [h']; exact fun hc => Option.noConfusion hc
    cases m with
    | done => exact ⟨hslot, hcb⟩
    | data a => cases a <;> exact ⟨hslot, hcb⟩

/-- `Receiver::drop` leaves the mailbox empty (it drains a stuck message if
one was present) and registers no `writeDone` callback. -/
theorem receiver_drop_state_inv {T E : Type} (r : Receiver) (s : Chan T E)
    (hE : ∀ tk, s.onEmptyCb ≠ some (tk, .writeDone)) :
    (Receiver.drop r s).slot = none ∧
    (∀ tk, (Receiver.drop r s).onEmptyCb ≠ some (tk, .writeDone)) := by
  have hXE : ∀ tk,
      (cancelOpt r.onFullToken ({ s with receiverGone := true } : Chan T E)).onEmptyCb ≠
        some (tk, .writeDone) := by
    intro tk
    rcases cancelOpt_onEmptyCb_cases r.onFullToken
        ({ s with receiverGone := true } : Chan T E) with h' | h'
    · rw [h']; exact hE tk
    · rw [h']; exact fun hc => Option.noConfusion hc
  exact onFull_drainDiscard_state
    (cancelOpt r.onFullToken ({ s with receiverGone := true } : Chan T E)) hXE

/-- One poll of an unresolved `FutureSender` against a state holding no `Done`
and no `writeDone` registration: either it resolves send-failed, or the state
still holds no `Done` and no `writeDone` registration and the poll resolved
ready or suspended keeping its payload. -/
theorem futureSender_poll_state_inv {T E : Type} (tid : Nat) (f : FutureSender T E)
    (s : Chan T E) (d : Res T E) (hd : f.data = some d) (hs : f.sender = true)
    (hD : s.slot ≠ some .done)
    (hE : ∀ tk, s.onEmptyCb ≠ some (tk, .writeDone)) :
    (FutureSender.poll tid f s).1 = .sendError d ∨
    ((FutureSender.poll tid f s).2.2.slot ≠ some .done ∧
     (∀ tk, (FutureSender.poll tid f s).2.2.onEmptyCb ≠ some (tk, .writeDone)) ∧
     ((FutureSender.poll tid f s).1 = .ready ∨
       ((FutureSender.poll tid f s).1 = .notReady ∧
        (FutureSender.poll tid f s).2.1.sender = true ∧
        (FutureSender.poll tid f s).2.1.data = some d))) := by
  have hXE : ∀ tk, (cancelOpt f.onEmptyToken s).onEmptyCb ≠ some (tk, .writeDone) := by
    intro tk
    rcases cancelOpt_onEmptyCb_cases f.onEmptyToken s with h' | h'
    · rw [h']; exact hE tk
    · rw [h']; exact fun hc => Option.noConfusion hc
  have hXD : (cancelOpt f.onEmptyToken s).slot ≠ some .done := by
    rw [cancelOpt_slot]; exact hD
  simp only [FutureSender.poll, hd, hs]
  cases hrg : s.receiverGone with
  | true =>
    have h1 : (cancelOpt f.onEmptyToken s).receiverGone = true := by
      rw [cancelOpt_receiverGone]; exact hrg
    rw [if_pos h1]
    exact Or.inl rfl
  | false =>
    have h1 : ¬((cancelOpt f.onEmptyToken s).receiverGone = true) := by
      rw [cancelOpt_receiverGone, hrg]; exact Bool.false_ne_true
    rw [if_neg h1]
    rcases hq : tryProduce (.data d) (cancelOpt f.onEmptyToken s) with ⟨s2, rej⟩
    cases rej with
    | none =>
      right
      have hsucc : (tryProduce (.data d) (cancelOpt f.onEmptyToken s)).2 = none := by
        rw [hq]
      have hslot := tryProduce_success_slot (.data d) (cancelOpt f.onEmptyToken s) hsucc hXE
      rw [hq] at hslot
      have hslot' : s2.slot = some (.data d) ∨ s2.slot = none := hslot
      refine ⟨?_, ?_, Or.inl rfl⟩
      · intro hc
        have hc' : s2.slot = some Message.done := hc
        rcases hslot' with h' | h' <;> rw [h'] at hc' <;> simp at hc'
      · intro tk hc
        have hc' : s2.onEmptyCb = some (tk, .writeDone) := hc
        have h0 := slotOp_cbs 4 (.produce (.data d)) (cancelOpt f.onEmptyToken s)
        rw [show slotOp 4 (.produce (.data d)) (cancelOpt f.onEmptyToken s) = (s2, none)
          from hq] at h0
        have h0' : s2.onEmptyCb = (cancelOpt f.onEmptyToken s).onEmptyCb ∨
            s2.onEmptyCb = none := h0.2
        rcases h0' with h' | h'
        · rw [h'] at hc'; exact hXE tk hc'
        · rw [h'] at hc'; exact Option.noConfusion hc'
    | some rejm =>
      obtain ⟨hs2, hrejm, m0, hm0⟩ :=
        tryProduce_rejected (.data d) (cancelOpt f.onEmptyToken s) s2 rejm hq
      subst hs2; subst hrejm
      right
      refine ⟨?_, ?_, Or.inr ⟨rfl, rfl, rfl⟩⟩
      · intro hc
        have hc' : (onEmpty (.unparkSend tid) (cancelOpt f.onEmptyToken s)).2.slot =
            some Message.done := hc
        rw [onEmpty_full _ _ m0 hm0] at hc'
        exact hXD hc'
      · intro tk hc
        have hc' : (onEmpty (.unparkSend tid) (cancelOpt f.onEmptyToken s)).2.onEmptyCb =
            some (tk, .writeDone) := hc
        rw [onEmpty_full _ _ m0 hm0] at hc'
        simp at hc'

/-- The invariant holds of a fresh channel. -/
theorem initSys_inv (T E : Type) : Inv (initSys T E) :=
  ⟨fun _ => ⟨fun hc => Option.noConfusion hc, fun _ hc => Option.noConfusion hc⟩,
   fun _ hf => ProducerSide.noConfusion hf⟩

/-- Every endpoint move preserves the invariant. -/
theorem step_preserves_inv {T E : Type} {a b : Sys T E} (hInv : Inv a) (hs : Step a b) :
    Inv b := by
  cases hs with
  | send d h =>
    constructor
    · intro _
      exact hInv.1 (by rw [h]; exact fun hc => ProducerSide.noConfusion hc)
    · intro f2 hf2'
      cases hf2'
      exact ⟨rfl, rfl⟩
  | pollSend tid f h =>
    obtain ⟨hsend, hdata⟩ := hInv.2 f h
    obtain ⟨d, hd⟩ := Option.isSome_iff_exists.mp hdata
    have hprod : a.prod ≠ .dead := by
      rw [h]; exact fun hc => ProducerSide.noConfusion hc
    obtain ⟨hD, hE⟩ := hInv.1 hprod
    have hinv := futureSender_poll_state_inv tid f a.chan d hd hsend hD hE
    rcases hinv with hout | ⟨hslot, hcb, hout | ⟨hout, hf1, hf2⟩⟩
    · constructor
      · intro hcon
        exfalso
        apply hcon
        show (pollSendSys tid f a).prod = .dead
        simp only [pollSendSys, hout]
      · intro f2 hf2'
        exfalso
        have hp : (pollSendSys tid f a).prod = .dead := by
          simp only [pollSendSys, hout]
        rw [hp] at hf2'
        exact ProducerSide.noConfusion hf2'
    · constructor
      · intro _
        exact ⟨hslot, hcb⟩
      · intro f2 hf2'
        exfalso
        have hp : (pollSendSys tid f a).prod = .idle := by
          simp only [pollSendSys, hout]
        rw [hp] at hf2'
        exact ProducerSide.noConfusion hf2'
    · constructor
      · intro _
        exact ⟨hslot, hcb⟩
      · intro f2 hf2'
        have hp : (pollSendSys tid f a).prod =
            .inflight (FutureSender.poll tid f a.chan).2.1 := by
          simp only [pollSendSys, hout]
        rw [hp] at hf2'
        cases hf2'
        refine ⟨hf1, ?_⟩
        rw [hf2]
        rfl
  | dropFuture f h =>
    constructor
    · intro hcon
      exact absurd rfl hcon
    · intro f2 hf2'
      exact ProducerSide.noConfusion hf2'
  | dropSender h =>
    constructor
    · intro hcon
      exact absurd rfl hcon
    · intro f2 hf2'
      exact ProducerSide.noConfusion hf2'
  | pollRecv tid h =>
    constructor
    · intro hcon
      obtain ⟨hD, hE⟩ := hInv.1 hcon
      have hst := receiver_poll_state_inv tid a.recv a.chan hE
      constructor
      · intro hc
        have hc' : (Receiver.poll tid a.recv a.chan).2.2.slot = some Message.done := hc
        rw [hst.1] at hc'
        exact Option.noConfusion hc'
      · intro tk hc
        exact hst.2 tk hc
    · intro f2 hf2'
      exact hInv.2 f2 hf2'
  | dropRecv h =>
    constructor
    · intro hcon
      obtain ⟨hD, hE⟩ := hInv.1 hcon
      have hst := receiver_drop_state_inv a.recv a.chan hE
      constructor
      · intro hc
        have hc' : (Receiver.drop a.recv a.chan).slot = some Message.done := hc
        rw [hst.1] at hc'
        exact Option.noConfusion hc'
      · intro tk hc
        exact hst.2 tk hc
    · intro f2 hf2'
      exact hInv.2 f2 hf2'

/-- Every reachable configuration satisfies the invariant. -/
theorem reachable_inv {T E : Type} {sys : Sys T E} (h : Reachable sys) : Inv sys := by
  induction h with
  | init => exact initSys_inv T E
  | step _ hst ih => exact step_preserves_inv ih hst

/-- C10: in every reachable configuration with a handshake in flight (the
`FutureSender` still holds the sender), the mailbox cannot contain `Done` —
`Done` is only written after the sole sender is dropped — so a rejected
produce always recovers a `Data` message and polling the in-flight
`FutureSender` can never hit the recovered-`Done` (or any other) panic. -/
theorem no_done_while_sender_held {T E : Type} (sys : Sys T E) (hre : Reachable sys)
    (f : FutureSender T E) (hf : sys.prod = .inflight f) :
    sys.chan.slot ≠ some .done ∧
    ∀ tid, (FutureSender.poll tid f sys.chan).1 ≠ .panicked := by
  have hInv := reachable_inv hre
  have hprod : sys.prod ≠ .dead := by
    rw [hf]; exact fun hc => ProducerSide.noConfusion hc
  obtain ⟨hD, hE⟩ := hInv.1 hprod
  obtain ⟨hsend, hdata⟩ := hInv.2 f hf
  obtain ⟨d, hd⟩ := Option.isSome_iff_exists.mp hdata
  refine ⟨hD, fun tid hc => ?_⟩
  have h := futureSender_poll_state_inv tid f sys.chan d hd hsend hD hE
  rcases h with hout | ⟨_, _, hout | ⟨hout, _, _⟩⟩ <;> rw [hout] at hc <;>
    exact SPoll.noConfusion hc

/-- Witness for C10: right after `send(Ok(3))` on a fresh channel the slot
holds no `Done` and polling the in-flight handshake does not panic. -/
theorem no_done_while_sender_held_witness :
    ({ initSys Nat Nat with
        prod := .inflight (Sender.send (.ok 3)) } : Sys Nat Nat).chan.slot ≠ some .done ∧
    (FutureSender.poll 0 (Sender.send (.ok 3))
        ({ initSys Nat Nat with
            prod := .inflight (Sender.send (.ok 3)) } : Sys Nat Nat).chan).1 ≠ .panicked :=
  have hre : Reachable ({ initSys Nat Nat with
      prod := .inflight (Sender.send (.ok 3)) } : Sys Nat Nat) :=
    Reachable.step Reachable.init (Step.send (initSys Nat Nat) (.ok 3) rfl)
  have h := no_done_while_sender_held _ hre (Sender.send (.ok 3)) rfl
  ⟨h.1, h.2 0⟩

end Channel
